import Mathlib

/-!
Shallow embedding of the procedural music engine of this repository
(music_generator.py) and proofs about it.

Modelling conventions:
* Python floats are modelled as exact rationals.  Every constant that the
  claims mention (0.75, 0.1875, 12.0, the note frequencies, the selection
  weights) is a decimal or dyadic number, and all arithmetic performed on
  them in the relevant code paths is exact in IEEE double precision as
  well, so the rational model agrees with the float execution there.
* Randomness (random.random, random.choices, np.random.uniform) is
  modelled by explicit oracle streams.  random.choices over a list whose
  weights are all positive is modelled as an oracle-selected index into
  the candidate list (every call site uses strictly positive weights, so
  the support is the whole list).
* Foreign numeric routines (math.sin, math.pi, np.power) are abstracted
  into a `Backend` record of pure functions; the embedding is
  parameterised over it, mirroring that the code calls them as pure
  library functions.
-/

set_option maxHeartbeats 1000000

namespace MusicGen

-- The Batteries rational operations are marked irreducible, which blocks
-- kernel evaluation of concrete runs; restore default reducibility locally
-- so that `decide` can evaluate the embedded functions on concrete inputs.
attribute [local semireducible] Rat.add Rat.mul Rat.inv Rat.sub

/-! ### Musical timing (play_song, music_generator.py lines 886-890 and 932-936) -/

/-- `self.beat_duration = 60.0 / self.tempo` (line 889). -/
def beat_duration (tempo : ℚ) : ℚ := 60 / tempo

/-- `self.steps_per_beat = 4` (line 251). -/
def steps_per_beat : ℕ := 4

/-- `self.step_duration = self.beat_duration / self.steps_per_beat` (line 890);
play_song recomputes the same value locally as `step_duration =
self.beat_duration / 4` (line 935). -/
def step_duration (tempo : ℚ) : ℚ := beat_duration tempo / steps_per_beat

/-- `self.beats_per_bar = 4` (line 253). -/
def beats_per_bar : ℕ := 4

/-- `self.bars_per_phrase = 4` (line 254). -/
def bars_per_phrase : ℕ := 4

/-- `steps_per_bar = 16` (line 933). -/
def steps_per_bar : ℕ := 16

/-- `total_steps = steps_per_bar * self.bars_per_phrase` (line 934). -/
def total_steps : ℕ := steps_per_bar * bars_per_phrase

/-- `section_duration = total_steps * step_duration` (line 936). -/
def section_duration (tempo : ℚ) : ℚ := total_steps * step_duration tempo

/-- `total_beats = self.beats_per_bar * self.bars_per_phrase` inside
generate_melody (line 707): 16 beats per section. -/
def total_beats : ℚ := (beats_per_bar : ℚ) * (bars_per_phrase : ℚ)

/-- A note name: letter (A-G) plus octave.  Every note that flows through
the generator is a one-letter name with a one-digit octave, so the Python
slicing `note[:-1]` / `note[-1]` corresponds to the two fields. -/
structure Note where
  letter : Char
  octave : Int
deriving DecidableEq, Repr

/-- `self.notes` (lines 118-122): frequency table in Hz, exact decimals. -/
def notes : List (Note × ℚ) :=
  [(⟨'C', 3⟩, 13081 / 100), (⟨'D', 3⟩, 14683 / 100), (⟨'E', 3⟩, 16481 / 100),
   (⟨'F', 3⟩, 17461 / 100), (⟨'G', 3⟩, 196), (⟨'A', 3⟩, 220), (⟨'B', 3⟩, 24694 / 100),
   (⟨'C', 4⟩, 26163 / 100), (⟨'D', 4⟩, 29366 / 100), (⟨'E', 4⟩, 32963 / 100),
   (⟨'F', 4⟩, 34923 / 100), (⟨'G', 4⟩, 392), (⟨'A', 4⟩, 440), (⟨'B', 4⟩, 49388 / 100),
   (⟨'C', 5⟩, 52325 / 100), (⟨'D', 5⟩, 58733 / 100), (⟨'E', 5⟩, 65926 / 100),
   (⟨'F', 5⟩, 69846 / 100), (⟨'G', 5⟩, 78399 / 100), (⟨'A', 5⟩, 880), (⟨'B', 5⟩, 98777 / 100)]

/-- `self.notes[n]` for notes known to be in the table. -/
def noteFreq (n : Note) : ℚ := ((notes.find? (fun p => p.1 == n)).map Prod.snd).getD 0

/-- `n in self.notes` (membership test on the dictionary keys). -/
def noteInTable (n : Note) : Bool := (notes.find? (fun p => p.1 == n)).isSome

/-- The ladder used to build `self.note_order` (lines 348-352). -/
def note_order_list : List Note :=
  [⟨'C', 3⟩, ⟨'D', 3⟩, ⟨'E', 3⟩, ⟨'F', 3⟩, ⟨'G', 3⟩, ⟨'A', 3⟩, ⟨'B', 3⟩,
   ⟨'C', 4⟩, ⟨'D', 4⟩, ⟨'E', 4⟩, ⟨'F', 4⟩, ⟨'G', 4⟩, ⟨'A', 4⟩, ⟨'B', 4⟩,
   ⟨'C', 5⟩, ⟨'D', 5⟩, ⟨'E', 5⟩, ⟨'F', 5⟩, ⟨'G', 5⟩, ⟨'A', 5⟩, ⟨'B', 5⟩]

/-- `self.note_order.get(x, 0)` (dictionary with default 0, line 693). -/
def note_order (n : Note) : ℕ := (note_order_list.findIdx? (fun m => m == n)).getD 0

/-- `self.scale_degrees` (lines 125-133); Python raises KeyError outside
1-7, but every call site passes a degree from a progression table, all of
which are within 1-7, so the `[]` default is never reached in modelled
executions. -/
def scale_degrees : ℕ → List Note
  | 1 => [⟨'C', 4⟩, ⟨'E', 4⟩, ⟨'G', 4⟩]
  | 2 => [⟨'D', 4⟩, ⟨'F', 4⟩, ⟨'A', 4⟩]
  | 3 => [⟨'E', 4⟩, ⟨'G', 4⟩, ⟨'B', 4⟩]
  | 4 => [⟨'F', 4⟩, ⟨'A', 4⟩, ⟨'C', 5⟩]
  | 5 => [⟨'G', 4⟩, ⟨'B', 4⟩, ⟨'D', 5⟩]
  | 6 => [⟨'A', 4⟩, ⟨'C', 5⟩, ⟨'E', 5⟩]
  | 7 => [⟨'B', 4⟩, ⟨'D', 5⟩, ⟨'F', 5⟩]
  | _ => []

/-- `self.scales['major']` (line 137). -/
def scales_major : List Note :=
  [⟨'C', 4⟩, ⟨'D', 4⟩, ⟨'E', 4⟩, ⟨'F', 4⟩, ⟨'G', 4⟩, ⟨'A', 4⟩, ⟨'B', 4⟩, ⟨'C', 5⟩]

/-- Stable insertion step for `list.sort(key=...)`.  All duplicate keys in
the lists being sorted belong to equal notes, so stability is not
observable, but the insertion sort used here is stable like the Python
sort. -/
def insertSorted (key : Note → ℕ) (x : Note) : List Note → List Note
  | [] => [x]
  | y :: ys => if key x ≤ key y then x :: y :: ys else y :: insertSorted key x ys

/-- `consonant_notes.sort(key=lambda x: self.note_order.get(x, 0))`. -/
def sortByKey (key : Note → ℕ) : List Note → List Note
  | [] => []
  | x :: xs => insertSorted key x (sortByKey key xs)

/-- The notes appended after the chord tones in get_consonant_notes
(lines 675-690). -/
def consonantExtras (d : ℕ) (chordNotes : List Note) : List Note :=
  if d = 1 then [⟨'G', 4⟩, ⟨'E', 4⟩, ⟨'C', 5⟩, ⟨'D', 4⟩]
  else if d = 4 then [⟨'F', 4⟩, ⟨'A', 4⟩, ⟨'C', 5⟩, ⟨'G', 4⟩]
  else if d = 5 then [⟨'G', 4⟩, ⟨'B', 4⟩, ⟨'D', 5⟩, ⟨'F', 4⟩]
  else if d = 6 then [⟨'A', 4⟩, ⟨'C', 5⟩, ⟨'E', 4⟩, ⟨'B', 4⟩]
  else
    let base := chordNotes.headD ⟨'C', 4⟩
    let scaleIdx := (scales_major.findIdx? (fun m => m == base)).getD 0
    (if 0 < scaleIdx then [scales_major.getD (scaleIdx - 1) ⟨'C', 4⟩] else []) ++
      (if scaleIdx < scales_major.length - 1 then
        [scales_major.getD (scaleIdx + 1) ⟨'C', 4⟩] else [])

/-- get_consonant_notes (lines 665-695): chord tones first, then the
degree-specific extras, sorted by note_order. -/
def get_consonant_notes (d : ℕ) : List Note :=
  let chordNotes := scale_degrees d
  sortByKey note_order (chordNotes ++ consonantExtras d chordNotes)

/-- Python float test `q % m == 0` for nonnegative `q`: true iff `q` is an
integral multiple of `m`.  Exact for the dyadic beats used here. -/
def q_is_multiple (q m : ℚ) : Bool := (q / m).den == 1

/-- Base selection weight of the candidate at signed interval `interval`
from the previous note (lines 768-776): 1.0 multiplied by 3.0 for a single
scale step, by 1.5 for a repeat, and by 0.5 otherwise. -/
def candidate_weight (interval : ℤ) : ℚ :=
  if interval.natAbs = 1 then 3 else if interval = 0 then 3 / 2 else 1 / 2

/-- Strong-beat chord-tone boost (lines 779-781): multiply by 2.0 when the
current beat is an even multiple and the candidate is a tone of the
current chord. -/
def chord_tone_boost (beat : ℚ) (chord : ℕ) (n : Note) : ℚ :=
  if q_is_multiple beat 2 ∧ n ∈ scale_degrees chord then 2 else 1

/-- The candidate loop of generate_melody (lines 760-784): for every index
into the consonant set, skip it when the interval from the previous-note
index exceeds max_interval, otherwise record the index with its selection
weight. -/
def candidatePairs (consonant : List Note) (currentIdx : ℤ) (beat : ℚ)
    (chord : ℕ) (maxInterval : ℕ) : List (ℕ × ℚ) :=
  (List.range consonant.length).filterMap (fun (i : ℕ) =>
    if maxInterval < ((i : ℤ) - currentIdx).natAbs then none
    else some (i, candidate_weight ((i : ℤ) - currentIdx) *
      chord_tone_boost beat chord (consonant.getD i ⟨'C', 4⟩)))

/-- The parameters generate_melody reads from the genre profile and the
transport: note_length_weights argument, plus max_interval,
repetition_chance, rest_chance (lines 713-717) and self.beat_duration. -/
structure MelodyCfg where
  beatDuration : ℚ
  noteLengthWeights : List (ℚ × ℚ)
  maxInterval : ℕ
  repetitionChance : ℚ
  restChance : ℚ

/-- Oracle for the randomness consumed by generate_melody: `probs` feeds
the successive `random.random()` results, `picks` the successive
`random.choices` selections (as an index into the candidate list, taken
modulo its length; all weights at every call site are positive). -/
structure MelodyOracle where
  probs : ℕ → ℚ
  picks : ℕ → ℕ

/-- Loop state of generate_melody: the melody built so far, current_beat,
last_note, repeated_notes_count, phrase_length, and the two oracle
cursors. -/
structure MelState where
  melody : List (Option Note × ℚ)
  currentBeat : ℚ
  lastNote : Note
  repeatedCount : ℕ
  phraseLength : ℚ
  pIdx : ℕ
  cIdx : ℕ

/-- Strong-beat note-length table (line 796): `[(1.0, 0.7), (2.0, 0.3)]`. -/
def strong_beat_lengths : List (ℚ × ℚ) := [(1, 7 / 10), (2, 3 / 10)]

/-- Note selection of one loop iteration (lines 752-791), entered when the
rest branch was not taken: either repeat the previous note, or pick from
the weighted candidates (falling back to the previous note when no
candidate is in range).  Returns (note, repeated_notes_count, choice
cursor). -/
def melodyChoose (cfg : MelodyCfg) (prog : List ℕ) (o : MelodyOracle)
    (s : MelState) (pIdx1 : ℕ) : Note × ℕ × ℕ :=
  let beatsPerChord : ℚ := total_beats / (prog.length : ℚ)
  let chordIndex0 := (⌊s.currentBeat / beatsPerChord⌋).toNat
  let chordIndex := if prog.length ≤ chordIndex0 then prog.length - 1 else chordIndex0
  let currentChord := prog.getD chordIndex 1
  let consonant := get_consonant_notes currentChord
  let currentIdx : ℤ :=
    ((consonant.findIdx? (fun m => m == s.lastNote)).map (fun k => (k : ℤ))).getD (-1)
  if o.probs pIdx1 < cfg.repetitionChance ∧ s.repeatedCount < 2 then
    (s.lastNote, s.repeatedCount + 1, s.cIdx)
  else
    let pairs := candidatePairs consonant currentIdx s.currentBeat currentChord cfg.maxInterval
    if pairs.isEmpty then (s.lastNote, s.repeatedCount, s.cIdx)
    else
      let chosen := pairs.getD (o.picks s.cIdx % pairs.length) (0, 0)
      (consonant.getD chosen.1 s.lastNote, 0, s.cIdx + 1)

/-- Note-length selection (lines 793-798): the strong-beat table when
current_beat is a multiple of 4, the genre table otherwise.  Returns the
length in beats and the advanced choice cursor. -/
def melodyLenPick (cfg : MelodyCfg) (o : MelodyOracle) (beat : ℚ) (cIdx : ℕ) : ℚ × ℕ :=
  if q_is_multiple beat 4 then
    ((strong_beat_lengths.getD (o.picks cIdx % strong_beat_lengths.length) (1, 1)).1, cIdx + 1)
  else
    ((cfg.noteLengthWeights.getD (o.picks cIdx % cfg.noteLengthWeights.length) (1, 1)).1, cIdx + 1)

/-- One iteration of the while-loop of generate_melody (lines 732-807).
The rest branch appends `(None, 1.0)`; the note branch appends
`(note, length * self.beat_duration)` after clipping the length at the
section boundary. -/
def melodyStep (cfg : MelodyCfg) (prog : List ℕ) (o : MelodyOracle) (s : MelState) : MelState :=
  if 4 ≤ s.phraseLength ∧ o.probs s.pIdx < cfg.restChance then
    { s with melody := s.melody ++ [(none, 1)], currentBeat := s.currentBeat + 1,
             phraseLength := 0, pIdx := s.pIdx + 1 }
  else
    let pIdx1 := if 4 ≤ s.phraseLength then s.pIdx + 1 else s.pIdx
    let nrc := melodyChoose cfg prog o s pIdx1
    let lc := melodyLenPick cfg o s.currentBeat nrc.2.2
    let len := if total_beats < s.currentBeat + lc.1 then total_beats - s.currentBeat else lc.1
    { melody := s.melody ++ [(some nrc.1, len * cfg.beatDuration)],
      currentBeat := s.currentBeat + len,
      lastNote := nrc.1,
      repeatedCount := nrc.2.1,
      phraseLength := s.phraseLength + len,
      pIdx := pIdx1 + 1,
      cIdx := lc.2 }

/-- The while-loop `while current_beat < total_beats` with explicit fuel;
generate_melody always terminates because every iteration advances
current_beat by at least half a beat, so any fuel of at least 32 runs the
loop to completion. -/
def melodyLoop (cfg : MelodyCfg) (prog : List ℕ) (o : MelodyOracle) :
    ℕ → MelState → MelState
  | 0, s => s
  | n + 1, s =>
    if s.currentBeat < total_beats then melodyLoop cfg prog o n (melodyStep cfg prog o s) else s

/-- generate_melody (lines 697-809): the first event is the middle element
of the consonant set of the first chord with recorded duration the float
literal 1.0 (lines 719-725), then the loop runs. -/
def generate_melody (cfg : MelodyCfg) (prog : List ℕ) (o : MelodyOracle)
    (fuel : ℕ) : MelState :=
  let firstChord := prog.getD 0 1
  let consonant := get_consonant_notes firstChord
  let firstNote := consonant.getD (consonant.length / 2) ⟨'C', 4⟩
  melodyLoop cfg prog o fuel
    { melody := [(some firstNote, 1)], currentBeat := 1, lastNote := firstNote,
      repeatedCount := 0, phraseLength := 0, pIdx := 0, cIdx := 0 }

/-- Sum of the duration components of a melody event list. -/
def durSum (m : List (Option Note × ℚ)) : ℚ := (m.map Prod.snd).sum

/-- Number of rest events in a melody event list. -/
def restCount (m : List (Option Note × ℚ)) : ℕ := m.countP (fun e => e.1 == none)

/-- The ambient genre profile at tempo 80 BPM (tempo range 70-90):
beat_duration 0.75, note_weights [(2.0, 0.6), (4.0, 0.4)], max_interval 2,
repetition_chance 0.4, rest_chance 0.3 (lines 73-89). -/
def ambientCfg80 : MelodyCfg :=
  { beatDuration := 3 / 4, noteLengthWeights := [(2, 3 / 5), (4, 2 / 5)],
    maxInterval := 2, repetitionChance := 2 / 5, restChance := 3 / 10 }

/-- An oracle that never takes the rest or repetition branch (0.99 is
above both probabilities) and always selects the first weighted
candidate. -/
def oracleFirst : MelodyOracle := ⟨fun _ => 99 / 100, fun _ => 0⟩

/-- The loop invariant relating the recorded durations (in seconds in the
intent of play_song) to the beat counter: the first event and every rest
contribute the float literal 1.0 instead of beat_duration seconds. -/
def MelodyInv (bd : ℚ) (s : MelState) : Prop :=
  durSum s.melody = bd * s.currentBeat + (1 - bd) * (1 + (restCount s.melody : ℚ))

/-- The diatonic letter arithmetic of lines 618-619:
`chr(((ord(letter) - ord(A) + k) % 7) + ord(A))`. -/
def letter_shift (c : Char) (k : ℕ) : Char := Char.ofNat (((c.toNat - 65 + k) % 7) + 65)

/-- The three chord letters (root, third at +2 letters, fifth at +4
letters, same octave digit); the major and minor branches of the source
compute identical note names. -/
def chord_base_notes (root : Note) : List Note :=
  [root, ⟨letter_shift root.letter 2, root.octave⟩, ⟨letter_shift root.letter 4, root.octave⟩]

/-- Octave extension (lines 628-635): for each chord note, the lower
octave, the note itself, and the higher octave, in that order. -/
def extended_notes (root : Note) : List Note :=
  (chord_base_notes root).flatMap (fun n => [⟨n.letter, n.octave - 1⟩, n, ⟨n.letter, n.octave + 1⟩])

/-- Filter to the notes present in the frequency table (line 638). -/
def valid_notes (root : Note) : List Note :=
  (extended_notes root).filter (fun n => noteInTable n)

/-- The six voicing constructions (lines 641-659), indexing
valid_notes[0] through valid_notes[5].  Python would raise IndexError on
an out-of-range index; the getD default is never reached for the roots
the program passes (proved below). -/
def voicings (root : Note) : List (List ℚ) :=
  [[noteFreq ((valid_notes root).getD 0 ⟨'C', 4⟩), noteFreq ((valid_notes root).getD 1 ⟨'C', 4⟩),
    noteFreq ((valid_notes root).getD 2 ⟨'C', 4⟩)],
   [noteFreq ((valid_notes root).getD 1 ⟨'C', 4⟩), noteFreq ((valid_notes root).getD 2 ⟨'C', 4⟩),
    noteFreq ((valid_notes root).getD 3 ⟨'C', 4⟩)],
   [noteFreq ((valid_notes root).getD 2 ⟨'C', 4⟩), noteFreq ((valid_notes root).getD 3 ⟨'C', 4⟩),
    noteFreq ((valid_notes root).getD 4 ⟨'C', 4⟩)],
   [noteFreq ((valid_notes root).getD 0 ⟨'C', 4⟩), noteFreq ((valid_notes root).getD 3 ⟨'C', 4⟩),
    noteFreq ((valid_notes root).getD 5 ⟨'C', 4⟩)],
   [noteFreq ((valid_notes root).getD 1 ⟨'C', 4⟩), noteFreq ((valid_notes root).getD 2 ⟨'C', 4⟩),
    noteFreq ((valid_notes root).getD 3 ⟨'C', 4⟩)],
   [noteFreq ((valid_notes root).getD 1 ⟨'C', 4⟩), noteFreq ((valid_notes root).getD 0 ⟨'C', 4⟩),
    noteFreq ((valid_notes root).getD 4 ⟨'C', 4⟩)]]

/-- get_chord_notes (lines 606-663): `random.choices` over the six
voicings with the positive weights [0.25, 0.2, 0.2, 0.15, 0.1, 0.1],
modelled as an oracle-selected index. -/
def get_chord_notes (root : Note) (pick : ℕ) : List ℚ := (voicings root).getD (pick % 6) []

/-- The seven roots actually passed to get_chord_notes by play_song
(line 927) and play_chord_part (line 1097):
`self.scales['major'][chord_degree - 1]` for degrees 1 through 7. -/
def chord_roots : List Note := scales_major.take 7

/-- The four genre identifiers of `self.genres`; play_song always sets
self.current_genre to one of them (line 884), so the harmony-pattern
lookup of line 1081 never raises in a modelled execution. -/
inductive Genre
  | electronic
  | chill
  | funk
  | ambient
deriving DecidableEq, Repr

/-- `self.harmony_patterns` (lines 94-115). -/
def harmony_patterns : Genre → List (List ℕ)
  | .electronic =>
    [[1,0,0,0, 1,0,0,0, 1,0,0,0, 1,0,0,0],
     [1,0,0,0, 0,0,1,0, 0,0,1,0, 0,0,1,0],
     [1,0,1,0, 0,0,1,0, 0,1,0,0, 1,0,0,0]]
  | .chill =>
    [[1,0,0,0, 0,0,1,0, 0,0,0,0, 1,0,0,0],
     [1,0,0,1, 0,0,1,0, 0,1,0,0, 1,0,0,0],
     [1,0,0,0, 1,0,0,0, 0,0,1,0, 0,0,1,0]]
  | .funk =>
    [[1,0,1,0, 0,1,0,1, 0,1,0,1, 0,1,0,0],
     [1,0,0,1, 0,1,0,0, 1,0,0,1, 0,1,0,0],
     [1,1,0,1, 0,1,1,0, 1,0,1,0, 1,1,0,0]]
  | .ambient =>
    [[1,0,0,0, 0,0,0,0, 0,0,1,0, 0,0,0,0],
     [1,0,0,0, 0,0,0,0, 1,0,0,0, 0,0,0,0],
     [1,0,0,0, 0,0,1,0, 0,0,0,0, 0,0,1,0]]

/-- Worker-local state of play_chord_part: last_chord_step (initialised
-1), last_voicing (initialised None) and current_pattern (initialised
None), lines 1064-1067. -/
structure ChordState where
  lastChordStep : ℤ
  lastVoicing : Option (List ℚ)
  currentPattern : Option (List ℕ)
deriving DecidableEq, Repr

def chordInitState : ChordState := ⟨-1, none, none⟩

/-- The voicing retry loop of lines 1100-1103: draw voicings until one
differs from last_voicing.  The oracle stream vPick supplies the
successive random.choices selections; fuel bounds the search, and a
`none` result models the (theoretically possible) infinite loop when
every draw equals the previous voicing. -/
def find_voicing (root : Note) (vPick : ℕ → ℕ) (last : Option (List ℚ)) :
    ℕ → ℕ → Option (List ℚ)
  | _, 0 => none
  | k, fuel + 1 =>
    if some (get_chord_notes root (vPick k)) ≠ last then some (get_chord_notes root (vPick k))
    else find_voicing root vPick last (k + 1) fuel

/-- Lines 1085-1120 of one poll iteration: pattern-step computation,
step-block dedup, trigger condition, chord selection and voicing choice.
Returns the updated state and the voicing played at this poll (if any);
an outer `none` models the voicing retry loop never terminating.  A
trigger exception (indexing current_pattern = None, or an empty
progression) is caught by the bare `except` and skips the step without
updating last_chord_step. -/
def chord_trigger (prog : List ℕ) (vPick : ℕ → ℕ) (fuel : ℕ) (s : ChordState)
    (step : ℕ) : Option (ChordState × Option (List ℚ)) :=
  if ((step / 8 : ℕ) : ℤ) = s.lastChordStep then some (s, none)
  else
    match (if step % 16 = 0 then some true
           else (s.currentPattern.map (fun p => p.getD (step % 16) 0 != 0))) with
    | none => some (s, none)
    | some false => some (s, none)
    | some true =>
      if prog.isEmpty then some (s, none)
      else
        match find_voicing (scales_major.getD (prog.getD ((step / 8) % prog.length) 1 - 1) ⟨'C', 4⟩)
            vPick s.lastVoicing 0 fuel with
        | none => none
        | some v =>
          some ({ s with lastVoicing := some v, lastChordStep := ((step / 8 : ℕ) : ℤ) }, some v)

/-- Lines 1078-1083: on a step with step % 64 == 0, re-select the rhythm
pattern from the genre pool (random.choices with positive weights,
modelled by the patPick index). -/
def chord_pattern_update (genre : Genre) (patPick : ℕ) (s : ChordState) (step : ℕ) : ChordState :=
  if step % 64 = 0 then
    { s with currentPattern := some ((harmony_patterns genre).getD (patPick % (harmony_patterns genre).length) []) }
  else s

/-- One poll iteration of play_chord_part (lines 1069-1121): the pattern
re-selection happens BEFORE the step-block dedup test, then the trigger
logic runs. -/
def chord_poll (genre : Genre) (prog : List ℕ) (patPick : ℕ) (vPick : ℕ → ℕ)
    (fuel : ℕ) (s : ChordState) (step : ℕ) : Option (ChordState × Option (List ℚ)) :=
  chord_trigger prog vPick fuel (chord_pattern_update genre patPick s step) step

/-- Foreign numeric routines used by the synthesis code, abstracted as
pure functions: math.pi as a constant, math.sin / np.sin pointwise, and
np.power for the kick soft-compression exponent. -/
structure Backend where
  pi : ℚ
  sin : ℚ → ℚ
  pw : ℚ → ℚ → ℚ

/-- `self.sample_rate = 44100` (line 345). -/
def sample_rate : ℕ := 44100

/-- `num_samples = int(duration * self.sample_rate)` (line 416 and
analogues). -/
def num_samples_of (dur : ℚ) : ℕ := (⌊dur * (sample_rate : ℚ)⌋).toNat

/-- Element i of `np.linspace(a, b, n)` (endpoint included). -/
def linspace_val (a b : ℚ) (n : ℕ) (i : ℕ) : ℚ :=
  if n ≤ 1 then a else a + (b - a) * i / ((n : ℚ) - 1)

/-- Pointwise value of the envelope array built by apply_envelope
(lines 386-412): ones, then the attack, decay, sustain and release
segments written in that order, so a later segment overrides an earlier
one where they overlap (the release slice `[num - release_samples:]` is
written last). -/
def envelope_val (num : ℕ) (attack decay sustain release : ℚ) (i : ℕ) : ℚ :=
  let aS := (⌊attack * (num : ℚ)⌋).toNat
  let dS := (⌊decay * (num : ℚ)⌋).toNat
  let rS := (⌊release * (num : ℚ)⌋).toNat
  let dEnd := aS + dS
  let sEnd := num - rS
  if 0 < rS ∧ sEnd ≤ i then linspace_val sustain 0 rS (i - sEnd)
  else if dEnd ≤ i then sustain
  else if 0 < dS ∧ aS ≤ i then linspace_val 1 sustain dS (i - aS)
  else if 0 < aS ∧ i < aS then linspace_val 0 1 aS i
  else 1

/-- generate_harmonic_content (lines 414-423): sum of
`amplitude * sin(2 * pi * frequency * harmonic * t[i])` over the
harmonics table (Python dicts iterate in insertion order). -/
def harmonic_content (B : Backend) (freq dur : ℚ) (harmonics : List (ℚ × ℚ)) (i : ℕ) : ℚ :=
  (harmonics.map (fun h =>
    h.2 * B.sin (2 * B.pi * freq * h.1 * linspace_val 0 dur (num_samples_of dur) i))).sum

/-- `np.clip(x, lo, hi)`. -/
def clipQ (lo hi x : ℚ) : ℚ := max lo (min hi x)

/-- `np.sign`. -/
def signQ (x : ℚ) : ℚ := if 0 < x then 1 else if x < 0 then -1 else 0

/-- `np.max(np.abs(wave))` over the first num samples. -/
def max_abs (num : ℕ) (f : ℕ → ℚ) : ℚ :=
  ((List.range num).map (fun i => |f i|)).foldl max 0

/-- A rendered sample buffer: number of samples and the int16 sample at
each index; pygame duplicates it into two identical stereo columns
(np.column_stack), which carries no extra information. -/
structure SampleBuffer where
  len : ℕ
  sample : ℕ → ℤ

/-- Truncation toward zero, as in a C cast of a double to an integer. -/
def trunc_to_int (q : ℚ) : ℤ := if 0 ≤ q then ⌊q⌋ else ⌈q⌉

/-- `np.ndarray.astype(np.int16)`: truncate toward zero and wrap into
[-32768, 32767]. -/
def to_int16 (q : ℚ) : ℤ := (trunc_to_int q + 32768) % 65536 - 32768

/-- Genre-specific harmonic profiles of generate_melody_tone
(lines 437-471). -/
def melody_harmonics : Genre → List (ℚ × ℚ)
  | .electronic => [(1, 1), (2, 3 / 10), (3, 3 / 20), (4, 2 / 25), (5, 1 / 25)]
  | .chill => [(1, 1), (2, 7 / 20), (3, 3 / 25), (4, 3 / 50), (5, 3 / 100)]
  | .funk => [(1, 1), (2, 2 / 5), (3, 1 / 4), (4, 3 / 20), (5, 2 / 25)]
  | .ambient => [(1, 1), (2, 3 / 10), (3, 2 / 25), (4, 1 / 25), (5, 1 / 50)]

/-- Genre-specific ADSR fractions of generate_melody_tone. -/
def melody_adsr : Genre → ℚ × ℚ × ℚ × ℚ
  | .electronic => (3 / 20, 3 / 10, 3 / 5, 3 / 10)
  | .chill => (1 / 5, 3 / 10, 3 / 5, 2 / 5)
  | .funk => (1 / 20, 1 / 5, 3 / 5, 1 / 5)
  | .ambient => (3 / 10, 2 / 5, 1 / 2, 3 / 5)

/-- `self.genres[genre].get('melody_volume', 1.0)` (line 434): only
electronic and ambient define a melody_volume (0.6). -/
def melody_volume : Genre → ℚ
  | .electronic => 3 / 5
  | .ambient => 3 / 5
  | _ => 1

/-- The enveloped melody wave before normalisation (lines 474-485),
including the electronic soft clip and the ambient detuned chorus layer.
The noise stream parameter records access to the shared process RNG; the
melody path never reads it. -/
def melody_wave (B : Backend) (noise : ℕ → ℚ) (freq dur : ℚ) (genre : Genre) (i : ℕ) : ℚ :=
  let num := num_samples_of dur
  let a := melody_adsr genre
  let base := envelope_val num a.1 a.2.1 a.2.2.1 a.2.2.2 i * harmonic_content B freq dur (melody_harmonics genre) i
  match genre with
  | .electronic => clipQ (-1) 1 (base * (6 / 5))
  | .ambient =>
    (7 / 10) * base +
      (3 / 10) * (envelope_val num a.1 a.2.1 a.2.2.1 a.2.2.2 i *
        harmonic_content B (freq * (501 / 500)) dur (melody_harmonics genre) i)
  | _ => base

/-- The normalised int16 buffer of generate_melody_tone (lines 487-493):
amplitude is first scaled by the genre melody_volume (after the cache key
is formed), then by 0.8 for ambient and 0.7 otherwise, and the wave is
rescaled to that peak amplitude. -/
def melody_buffer (B : Backend) (noise : ℕ → ℚ) (freq dur amp : ℚ) (genre : Genre) : SampleBuffer :=
  let num := num_samples_of dur
  let amp2 := amp * melody_volume genre * (if genre = .ambient then 4 / 5 else 7 / 10)
  let m := max_abs num (melody_wave B noise freq dur genre)
  ⟨num, fun i => to_int16 (melody_wave B noise freq dur genre i * (amp2 / m))⟩

/-- The fixed harmonic profile of generate_harmony_tone (lines 513-518). -/
def harmony_harmonics : List (ℚ × ℚ) := [(1, 1), (2, 3 / 10), (3, 1 / 20), (4, 1 / 50)]

/-- The enveloped harmony wave with its 80/20 detuned chorus mix
(lines 520-526). -/
def harmony_wave (B : Backend) (noise : ℕ → ℚ) (freq dur : ℚ) (i : ℕ) : ℚ :=
  let num := num_samples_of dur
  (4 / 5) * (envelope_val num (1 / 4) (2 / 5) (2 / 5) (1 / 2) i *
      harmonic_content B freq dur harmony_harmonics i) +
    (1 / 5) * (envelope_val num (1 / 4) (2 / 5) (2 / 5) (1 / 2) i *
      harmonic_content B (freq * (501 / 500)) dur harmony_harmonics i)

/-- The normalised int16 buffer of generate_harmony_tone (lines 528-534):
amplitude halved relative to melody. -/
def harmony_buffer (B : Backend) (noise : ℕ → ℚ) (freq dur amp : ℚ) : SampleBuffer :=
  let num := num_samples_of dur
  let m := max_abs num (harmony_wave B noise freq dur)
  ⟨num, fun i => to_int16 (harmony_wave B noise freq dur i * (amp * (1 / 2) / m))⟩

/-- The three percussion types (lines 544-604). -/
inductive DrumType
  | kick
  | snare
  | hihat
deriving DecidableEq, Repr

/-- The kick frequency sweep (lines 552-559): freq starts at 150 and is
updated to max(40, freq * 0.9) before each sample. -/
def kick_freq : ℕ → ℚ
  | 0 => max 40 (150 * (9 / 10))
  | i + 1 => max 40 (kick_freq i * (9 / 10))

/-- The raw (pre-envelope) drum wave of generate_drum_sound.  The snare
mixes a 200 Hz sine with noise modulated by a 1000 Hz carrier
(np.random.uniform(-1, 1) fed by the noise stream); the hi-hat modulates
one fresh noise array by a 3000 Hz carrier and mixes in a 5000 Hz sizzle
with a second fresh array (indices offset by the sample count); the kick
is noise-free. -/
def drum_wave (B : Backend) (noise : ℕ → ℚ) (t : DrumType) (i : ℕ) : ℚ :=
  match t with
  | .kick =>
    let num := num_samples_of (1 / 10)
    let w := clipQ (-1) 1 (B.sin (2 * B.pi * kick_freq i * linspace_val 0 (1 / 10) num i) * 2)
    signQ w * B.pw |w| (4 / 5)
  | .snare =>
    let num := num_samples_of (1 / 10)
    (2 / 5) * B.sin (2 * B.pi * 200 * linspace_val 0 (1 / 10) num i) +
      (3 / 5) * (B.sin (2 * B.pi * 1000 * linspace_val 0 (1 / 10) num i) * noise i)
  | .hihat =>
    let num := num_samples_of (1 / 20)
    (7 / 10) * (noise i * B.sin (2 * B.pi * 3000 * linspace_val 0 (1 / 20) num i)) +
      (3 / 10) * (B.sin (2 * B.pi * 5000 * linspace_val 0 (1 / 20) num i) * noise (num + i))

/-- The per-type envelopes of generate_drum_sound. -/
def drum_env : DrumType → ℚ × ℚ × ℚ × ℚ
  | .kick => (1 / 100, 1 / 10, 3 / 10, 1 / 5)
  | .snare => (1 / 100, 1 / 10, 1 / 5, 1 / 10)
  | .hihat => (1 / 100, 1 / 20, 1 / 10, 1 / 20)

/-- The per-type peak amplitudes (8192 / 7168 / 6144). -/
def drum_amp : DrumType → ℚ
  | .kick => 8192
  | .snare => 7168
  | .hihat => 6144

/-- The int16 buffer of generate_drum_sound (lines 544-604): duration 0.1 s
(0.05 s for the hi-hat), envelope applied, then scaled by the type
amplitude times the per-call volume scale. -/
def drum_buffer (B : Backend) (noise : ℕ → ℚ) (t : DrumType) (volumeScale : ℚ) : SampleBuffer :=
  let dur : ℚ := if t = .hihat then 1 / 20 else 1 / 10
  let num := num_samples_of dur
  let e := drum_env t
  ⟨num, fun i =>
    to_int16 (envelope_val num e.1 e.2.1 e.2.2.1 e.2.2.2 i * drum_wave B noise t i *
      (drum_amp t * volumeScale))⟩

/-! ### Tone cache and mixer-facing calls (lines 361-363, 425-542, 867-878) -/

/-- The cache key f-strings: `melody_{frequency}_{duration}_{amplitude}_{genre}`
and `harmony_{frequency}_{duration}_{amplitude}` (lines 428, 508); the
melody key is formed from the amplitude argument BEFORE the genre volume
scaling. -/
inductive ToneKey
  | mel (freq dur amp : ℚ) (genre : Genre)
  | harm (freq dur amp : ℚ)
deriving DecidableEq

abbrev ToneCache := List (ToneKey × SampleBuffer)

/-- `self.max_cache_size = 1000` (line 363). -/
def max_cache_size : ℕ := 1000

/-- `if cache_key in self.tone_cache: return self.tone_cache[cache_key]`. -/
def cacheLookup (c : ToneCache) (k : ToneKey) : Option SampleBuffer :=
  ((c.find? (fun e => e.1 == k)).map Prod.snd)

/-- `if len(self.tone_cache) < self.max_cache_size: self.tone_cache[key] = sound`
(lines 496-497 and 537-538): insert only below the cap, never evict. -/
def cacheInsert (c : ToneCache) (k : ToneKey) (s : SampleBuffer) : ToneCache :=
  if c.length < max_cache_size then c ++ [(k, s)] else c

/-- pygame.sndarray.make_sound: fails when the mixer is not initialised.
An `Except.error` models the pygame exception. -/
def make_sound (mixer : Bool) (buf : SampleBuffer) : Except Unit SampleBuffer :=
  if mixer then .ok buf else .error ()

/-- generate_melody_tone (lines 425-499): cache lookup first; on a miss
the buffer is synthesised and make_sound is called WITHOUT any mixer
availability check and without a try/except, so a pygame error escapes to
the caller; on success the sound is cached when the cache is below its
cap. -/
def generate_melody_tone (mixer : Bool) (B : Backend) (noise : ℕ → ℚ) (c : ToneCache)
    (freq dur amp : ℚ) (genre : Genre) : Except Unit (SampleBuffer × ToneCache) :=
  match cacheLookup c (.mel freq dur amp genre) with
  | some s => .ok (s, c)
  | none =>
    match make_sound mixer (melody_buffer B noise freq dur amp genre) with
    | .error e => .error e
    | .ok s => .ok (s, cacheInsert c (.mel freq dur amp genre) s)

/-- generate_harmony_tone (lines 501-542): returns None immediately when
the mixer is unavailable, and its try/except turns any later failure into
None as well, so it never raises. -/
def generate_harmony_tone (mixer : Bool) (B : Backend) (noise : ℕ → ℚ) (c : ToneCache)
    (freq dur amp : ℚ) : Except Unit (Option SampleBuffer × ToneCache) :=
  if mixer = false then .ok (none, c)
  else
    match cacheLookup c (.harm freq dur amp) with
    | some s => .ok (some s, c)
    | none =>
      match make_sound mixer (harmony_buffer B noise freq dur amp) with
      | .error _ => .ok (none, c)
      | .ok s => .ok (some s, cacheInsert c (.harm freq dur amp) s)

/-- generate_drum_sound (lines 544-604): synthesises unconditionally and
calls make_sound with no mixer check and no exception handler. -/
def generate_drum_sound (mixer : Bool) (B : Backend) (noise : ℕ → ℚ) (t : DrumType)
    (volumeScale : ℚ) : Except Unit SampleBuffer :=
  make_sound mixer (drum_buffer B noise t volumeScale)

/-- play_sound (lines 867-878): plays and returns the sound only when it
is non-None and the mixer is available (find_channel(True) over 32
channels always yields a channel); returns None otherwise, catching any
error.  The second component is the channel volume applied
(0.0 while muted, the stored volume otherwise). -/
def play_sound (mixer : Bool) (muted : Bool) (volume : ℚ) (sound : Option SampleBuffer) :
    Option SampleBuffer × Option ℚ :=
  match sound with
  | none => (none, none)
  | some s => if mixer then (some s, some (if muted then 0 else volume)) else (none, none)

/-- A concrete backend for counterexample evaluation: sin constantly 1,
pi 0, power the identity in its first argument. -/
def stub_backend : Backend := ⟨0, fun _ => 1, fun x _ => x⟩

def noise_zero : ℕ → ℚ := fun _ => 0

def noise_half : ℕ → ℚ := fun _ => 1 / 2

/-- A synthesis request as issued during pre-rendering and playback, with
the mixer available. -/
inductive ToneReq
  | mel (freq dur amp : ℚ) (genre : Genre)
  | harm (freq dur amp : ℚ)

/-- The cache after one call to generate_melody_tone or
generate_harmony_tone with the mixer available. -/
def toneReqStep (B : Backend) (noise : ℕ → ℚ) (c : ToneCache) (r : ToneReq) : ToneCache :=
  match r with
  | .mel f d a g =>
    match generate_melody_tone true B noise c f d a g with
    | .ok p => p.2
    | .error _ => c
  | .harm f d a =>
    match generate_harmony_tone true B noise c f d a with
    | .ok p => p.2
    | .error _ => c

/-- The cache after a sequence of calls. -/
def toneReqRun (B : Backend) (noise : ℕ → ℚ) (c : ToneCache) (rs : List ToneReq) : ToneCache :=
  rs.foldl (toneReqStep B noise) c

def sample_silent : SampleBuffer := ⟨0, fun _ => 0⟩

/-- A cache already holding max_cache_size harmony entries. -/
def big_cache : ToneCache :=
  (List.range max_cache_size).map (fun (i : ℕ) => (ToneKey.harm (i : ℚ) 0 0, sample_silent))

/-- The mutable volume state of MusicGenerator: self.volume and
self.is_muted (lines 365-366), initialised to 0.5 and False. -/
structure VolumeState where
  volume : ℚ
  is_muted : Bool
deriving DecidableEq, Repr

/-- set_volume (lines 370-379): clamp the argument into [0, 1], store it,
and apply 0.0 to the busy channels while muted, the stored volume
otherwise.  The second component is the channel volume applied. -/
def set_volume (s : VolumeState) (v : ℚ) : VolumeState × ℚ :=
  ({ s with volume := max 0 (min 1 v) }, if s.is_muted then 0 else max 0 (min 1 v))

/-- set_muted (lines 381-384): store the flag, then re-apply via
set_volume(self.volume). -/
def set_muted (s : VolumeState) (m : Bool) : VolumeState × ℚ :=
  set_volume { s with is_muted := m } s.volume

inductive VolumeOp
  | setVol (v : ℚ)
  | setMut (m : Bool)

def volumeStep (s : VolumeState) : VolumeOp → VolumeState
  | .setVol v => (set_volume s v).1
  | .setMut m => (set_muted s m).1

def volumeRun (s : VolumeState) (ops : List VolumeOp) : VolumeState := ops.foldl volumeStep s

def init_volume_state : VolumeState := ⟨1 / 2, false⟩

/-! ## Theorems -/

/-- Claim C3 (confirmed): with tempo = 80 BPM, play_song computes
beat_duration = 60/80 = 0.75 s, step_duration = 0.75/4 = 0.1875 s and the
precomputed section_duration = 64 * 0.1875 = 12.0 s.  All three values are
dyadic, so the IEEE double computation in the source produces them exactly
as well. -/
theorem play_song_timing_at_80 :
    beat_duration 80 = 3 / 4 ∧ step_duration 80 = 3 / 16 ∧
      section_duration 80 = 12 := by
  refine ⟨?_, ?_, ?_⟩ <;>
    norm_num [beat_duration, step_duration, section_duration, steps_per_beat,
      total_steps, steps_per_bar, bars_per_phrase]

/-! ### Notes and derived tables (lines 117-140, 348-352) -/

theorem durSum_append (m : List (Option Note × ℚ)) (e : Option Note × ℚ) :
    durSum (m ++ [e]) = durSum m + e.2 := by
  simp [durSum]

theorem restCount_append_note (m : List (Option Note × ℚ)) (n : Note) (d : ℚ) :
    restCount (m ++ [(some n, d)]) = restCount m := by
  simp [restCount]

theorem restCount_append_rest (m : List (Option Note × ℚ)) (d : ℚ) :
    restCount (m ++ [(none, d)]) = restCount m + 1 := by
  simp [restCount]

theorem melodyStep_inv (cfg : MelodyCfg) (prog : List ℕ) (o : MelodyOracle)
    (s : MelState) (h : MelodyInv cfg.beatDuration s) :
    MelodyInv cfg.beatDuration (melodyStep cfg prog o s) := by
  unfold MelodyInv at h ⊢
  unfold melodyStep
  split
  · dsimp only
    rw [durSum_append, restCount_append_rest]
    push_cast
    linear_combination h
  · dsimp only
    rw [durSum_append, restCount_append_note]
    dsimp only
    linear_combination h

theorem melodyLoop_inv (cfg : MelodyCfg) (prog : List ℕ) (o : MelodyOracle) :
    ∀ (fuel : ℕ) (s : MelState), MelodyInv cfg.beatDuration s →
      MelodyInv cfg.beatDuration (melodyLoop cfg prog o fuel s)
  | 0, _, h => h
  | n + 1, s, h => by
    unfold melodyLoop
    split
    · exact melodyLoop_inv cfg prog o n _ (melodyStep_inv cfg prog o s h)
    · exact h

/-- Claim C1 (corrected).  The claim asserts that the melody durations sum
to the section playback duration, stated as 64 beats times beat_duration.
What actually holds: the walk spans 16 beats (the section is 64 sixteenth
steps, i.e. 16 beats, so the section playback duration equals
16 * beat_duration, not 64 * beat_duration), and the recorded duration sum
equals beat_duration * finalBeat + (1 - beat_duration) * (1 + rests),
because the first note and every rest are recorded with the literal
duration 1.0 (lines 724 and 736) instead of beat_duration seconds, while
all other notes are recorded as length * beat_duration (line 804).  The
sum therefore matches the section duration only when beat_duration = 1
(tempo 60), which no genre tempo range contains. -/
theorem generate_melody_duration_formula (cfg : MelodyCfg) (prog : List ℕ)
    (o : MelodyOracle) (fuel : ℕ) :
    (durSum (generate_melody cfg prog o fuel).melody =
      cfg.beatDuration * (generate_melody cfg prog o fuel).currentBeat +
        (1 - cfg.beatDuration) *
          (1 + (restCount (generate_melody cfg prog o fuel).melody : ℚ))) ∧
    ∀ tempo : ℚ, section_duration tempo = 16 * beat_duration tempo := by
  constructor
  · refine melodyLoop_inv cfg prog o fuel _ ?_
    unfold MelodyInv
    simp [durSum, restCount]
  · intro tempo
    unfold section_duration step_duration total_steps steps_per_bar bars_per_phrase steps_per_beat
    push_cast
    ring

/-- Claim C1 counterexample: a reachable concrete run (ambient genre,
tempo 80, intro progression [1,4,1,5], an oracle that never rests or
repeats and always picks the first candidate) has duration sum 12.25,
which differs both from the actual section playback duration 12.0 and
from the 64 * beat_duration = 48.0 stated by the claim. -/
theorem generate_melody_sum_counterexample :
    durSum (generate_melody ambientCfg80 [1, 4, 1, 5] oracleFirst 32).melody = 49 / 4 ∧
    (49 / 4 : ℚ) ≠ section_duration 80 ∧ (49 / 4 : ℚ) ≠ 64 * beat_duration 80 := by
  refine ⟨by decide, ?_, ?_⟩ <;>
    norm_num [section_duration, step_duration, beat_duration, total_steps,
      steps_per_bar, bars_per_phrase, steps_per_beat]

/-! ### The first melody event (claim C2) -/

theorem melodyStep_melody_append (cfg : MelodyCfg) (prog : List ℕ)
    (o : MelodyOracle) (s : MelState) :
    ∃ e, (melodyStep cfg prog o s).melody = s.melody ++ [e] := by
  unfold melodyStep
  split
  · exact ⟨_, rfl⟩
  · exact ⟨_, rfl⟩

theorem melodyLoop_head (cfg : MelodyCfg) (prog : List ℕ) (o : MelodyOracle) :
    ∀ (fuel : ℕ) (s : MelState), s.melody ≠ [] →
      (melodyLoop cfg prog o fuel s).melody.head? = s.melody.head?
  | 0, _, _ => rfl
  | n + 1, s, hne => by
    unfold melodyLoop
    split
    · obtain ⟨e, he⟩ := melodyStep_melody_append cfg prog o s
      rw [melodyLoop_head cfg prog o n _ (by simp [he]), he]
      cases hm : s.melody with
      | nil => exact absurd hm hne
      | cons a l => simp
    · rfl

/-- Claim C2 (corrected).  The deterministic first-note selection holds as
claimed: whenever the first chord of the progression is scale degree 1,
the first melody event is the middle element
consonant_notes[len(consonant_notes) // 2] of the sorted consonant set of
degree 1, which is E4.  Its recorded duration, however, is the float
literal 1.0 (line 724) — one beat only in the walk's own beat counting —
and not beat_duration seconds for every tempo as the claim states; the
two agree only at tempo 60. -/
theorem generate_melody_first_note (cfg : MelodyCfg) (prog : List ℕ)
    (o : MelodyOracle) (fuel : ℕ) (h : prog.head? = some 1) :
    (generate_melody cfg prog o fuel).melody.head? = some (some ⟨'E', 4⟩, 1) ∧
      (get_consonant_notes 1).getD ((get_consonant_notes 1).length / 2) ⟨'C', 4⟩ =
        ⟨'E', 4⟩ := by
  have h0 : prog.getD 0 1 = 1 := by
    cases prog with
    | nil => simp at h
    | cons a l => simpa using congrArg (fun x => x.getD 1) h
  constructor
  · unfold generate_melody
    rw [h0, melodyLoop_head cfg prog o fuel _ (by simp)]
    decide
  · decide

theorem generate_melody_first_note_witness :
    ([1, 4, 1, 5] : List ℕ).head? = some 1 ∧
      (generate_melody ambientCfg80 [1, 4, 1, 5] oracleFirst 0).melody.head? =
        some (some ⟨'E', 4⟩, 1) :=
  ⟨rfl, (generate_melody_first_note ambientCfg80 [1, 4, 1, 5] oracleFirst 0 rfl).1⟩

/-- Claim C2 counterexample: in the same reachable run at tempo 80, the
recorded duration of the first melody event is the literal 1.0, which is
not beat_duration = 0.75 seconds. -/
theorem first_note_duration_counterexample :
    (generate_melody ambientCfg80 [1, 4, 1, 5] oracleFirst 32).melody.head? =
      some (some ⟨'E', 4⟩, 1) ∧ (1 : ℚ) ≠ beat_duration 80 := by
  exact ⟨by decide, by norm_num [beat_duration]⟩

/-! ### Candidate weighting (claim C8) -/

/-- Claim C8 (confirmed): membership characterisation of the candidate
list built by generate_melody for the next-note choice.  A pair (i, w) is
produced exactly when i indexes the consonant set, the signed interval
i - currentIdx has magnitude at most max_interval, and w is 3.0 for a
single-step interval, 1.5 for a repeat, 0.5 otherwise, doubled exactly
when the current beat is even and the candidate is a chord tone of the
current chord. -/
theorem melody_weighting (consonant : List Note) (currentIdx : ℤ) (beat : ℚ)
    (chord : ℕ) (maxInterval : ℕ) (i : ℕ) (w : ℚ) :
    (i, w) ∈ candidatePairs consonant currentIdx beat chord maxInterval ↔
      i < consonant.length ∧ ((i : ℤ) - currentIdx).natAbs ≤ maxInterval ∧
        w = (if ((i : ℤ) - currentIdx).natAbs = 1 then 3
             else if (i : ℤ) - currentIdx = 0 then 3 / 2 else 1 / 2) *
            (if q_is_multiple beat 2 ∧ consonant.getD i ⟨'C', 4⟩ ∈ scale_degrees chord
             then 2 else 1) := by
  unfold candidatePairs
  simp only [List.mem_filterMap, List.mem_range]
  constructor
  · rintro ⟨a, ha, hfa⟩
    by_cases hs : maxInterval < ((a : ℤ) - currentIdx).natAbs
    · rw [if_pos hs] at hfa
      exact absurd hfa (by simp)
    · rw [if_neg hs] at hfa
      simp only [Option.some.injEq, Prod.mk.injEq] at hfa
      obtain ⟨rfl, rfl⟩ := hfa
      exact ⟨ha, by omega, rfl⟩
  · rintro ⟨hlen, hle, rfl⟩
    refine ⟨i, hlen, ?_⟩
    have hs : ¬ maxInterval < ((i : ℤ) - currentIdx).natAbs := by omega
    rw [if_neg hs]
    rfl

theorem melody_weighting_witness :
    ((0 : ℕ), (3 : ℚ)) ∈ candidatePairs (get_consonant_notes 1) 0 0 1 2 :=
  (melody_weighting (get_consonant_notes 1) 0 0 1 2 0 3).mpr
    ⟨by decide, by decide, by decide⟩

/-! ### Chord realisation (get_chord_notes, lines 606-663) -/

theorem get_chord_notes_safe_aux :
    ∀ root ∈ chord_roots, ∀ j : Fin 6,
      6 ≤ (valid_notes root).length ∧
      ((voicings root).getD (j : ℕ) []).length = 3 ∧
      ∀ q ∈ (voicings root).getD (j : ℕ) [], q ∈ notes.map Prod.snd := by
  decide

/-- Claim C9 (confirmed): for every root actually passed to
get_chord_notes, the third and fifth letters are the root letter shifted
by +2 and +4 modulo 7, the octave-extended candidate list keeps at least
6 entries present in the note table (in fact 9), so the indices
valid_notes[0]..valid_notes[5] used by the six voicings are in bounds,
and every returned voicing is exactly 3 frequencies drawn from the note
table. -/
theorem get_chord_notes_safe (root : Note) (pick : ℕ) (h : root ∈ chord_roots) :
    chord_base_notes root =
      [root, ⟨letter_shift root.letter 2, root.octave⟩,
       ⟨letter_shift root.letter 4, root.octave⟩] ∧
    6 ≤ (valid_notes root).length ∧
    (get_chord_notes root pick).length = 3 ∧
    ∀ q ∈ get_chord_notes root pick, q ∈ notes.map Prod.snd := by
  have hj : pick % 6 < 6 := Nat.mod_lt _ (by norm_num)
  obtain ⟨h1, h2, h3⟩ := get_chord_notes_safe_aux root h ⟨pick % 6, hj⟩
  exact ⟨rfl, h1, h2, h3⟩

theorem get_chord_notes_safe_witness :
    6 ≤ (valid_notes ⟨'C', 4⟩).length ∧
    (get_chord_notes ⟨'C', 4⟩ 0).length = 3 ∧
    ∀ q ∈ get_chord_notes ⟨'C', 4⟩ 0, q ∈ notes.map Prod.snd :=
  (get_chord_notes_safe ⟨'C', 4⟩ 0 (by decide)).2

/-! ### The harmony worker (play_chord_part, lines 1061-1121) -/

theorem chord_pattern_update_lastVoicing (genre : Genre) (patPick : ℕ)
    (s : ChordState) (step : ℕ) :
    (chord_pattern_update genre patPick s step).lastVoicing = s.lastVoicing := by
  unfold chord_pattern_update
  split
  · rfl
  · rfl

theorem find_voicing_ne (root : Note) (vPick : ℕ → ℕ) (last : Option (List ℚ)) :
    ∀ (fuel k : ℕ) (v : List ℚ), find_voicing root vPick last k fuel = some v →
      some v ≠ last
  | 0, _, _, h => by exact absurd h (by simp [find_voicing])
  | fuel + 1, k, v, h => by
    unfold find_voicing at h
    split at h
    · next hne => exact (Option.some.injEq .. ▸ h) ▸ hne
    · exact find_voicing_ne root vPick last fuel (k + 1) v h

theorem chord_trigger_pattern (prog : List ℕ) (vPick : ℕ → ℕ) (fuel : ℕ)
    (s : ChordState) (step : ℕ) (t : ChordState) (played : Option (List ℚ))
    (h : chord_trigger prog vPick fuel s step = some (t, played)) :
    t.currentPattern = s.currentPattern := by
  unfold chord_trigger at h
  split at h
  · obtain ⟨rfl, rfl⟩ := Prod.mk.injEq .. ▸ Option.some.injEq .. ▸ h
    rfl
  · split at h
    · obtain ⟨rfl, rfl⟩ := Prod.mk.injEq .. ▸ Option.some.injEq .. ▸ h
      rfl
    · obtain ⟨rfl, rfl⟩ := Prod.mk.injEq .. ▸ Option.some.injEq .. ▸ h
      rfl
    · split at h
      · obtain ⟨rfl, rfl⟩ := Prod.mk.injEq .. ▸ Option.some.injEq .. ▸ h
        rfl
      · split at h
        · exact absurd h (by simp)
        · obtain ⟨rfl, rfl⟩ := Prod.mk.injEq .. ▸ Option.some.injEq .. ▸ h
          rfl

theorem chord_trigger_voicing (prog : List ℕ) (vPick : ℕ → ℕ) (fuel : ℕ)
    (s : ChordState) (step : ℕ) (t : ChordState) (v : List ℚ)
    (h : chord_trigger prog vPick fuel s step = some (t, some v)) :
    some v ≠ s.lastVoicing ∧ t.lastVoicing = some v := by
  unfold chord_trigger at h
  split at h
  · obtain ⟨-, hv⟩ := Prod.mk.injEq .. ▸ Option.some.injEq .. ▸ h
    exact absurd hv (by simp)
  · split at h
    · obtain ⟨-, hv⟩ := Prod.mk.injEq .. ▸ Option.some.injEq .. ▸ h
      exact absurd hv (by simp)
    · obtain ⟨-, hv⟩ := Prod.mk.injEq .. ▸ Option.some.injEq .. ▸ h
      exact absurd hv (by simp)
    · split at h
      · obtain ⟨-, hv⟩ := Prod.mk.injEq .. ▸ Option.some.injEq .. ▸ h
        exact absurd hv (by simp)
      · split at h
        · exact absurd h (by simp)
        · next w hw =>
          obtain ⟨ht, hv⟩ := Prod.mk.injEq .. ▸ Option.some.injEq .. ▸ h
          have hw2 := find_voicing_ne _ vPick s.lastVoicing fuel 0 w hw
          subst ht
          obtain rfl : w = v := by simpa using hv
          exact ⟨hw2, rfl⟩

/-- Claim C7 (corrected).  What holds: (a) the rhythm pattern is
re-selected only on polls observing a step with step % 64 == 0, and on
every such poll it is re-assigned from the genre pool; since the worker
polls many times per step (millisecond sleeps against ~0.1 s steps), a
boundary step is typically observed several times and the pattern can be
re-selected several times per boundary, not exactly once.  (b) Whenever a
chord is triggered, the voicing played differs from the immediately
preceding voicing (the retry loop of lines 1100-1103), which is the part
of the claim that is confirmed. -/
theorem chord_poll_pattern_and_voicing :
    (∀ (genre : Genre) (prog : List ℕ) (patPick : ℕ) (vPick : ℕ → ℕ) (fuel : ℕ)
       (s : ChordState) (step : ℕ) (t : ChordState) (played : Option (List ℚ)),
       step % 64 ≠ 0 →
       chord_poll genre prog patPick vPick fuel s step = some (t, played) →
       t.currentPattern = s.currentPattern) ∧
    (∀ (genre : Genre) (prog : List ℕ) (patPick : ℕ) (vPick : ℕ → ℕ) (fuel : ℕ)
       (s : ChordState) (step : ℕ) (t : ChordState) (played : Option (List ℚ)),
       step % 64 = 0 →
       chord_poll genre prog patPick vPick fuel s step = some (t, played) →
       t.currentPattern =
         some ((harmony_patterns genre).getD (patPick % (harmony_patterns genre).length) [])) ∧
    (∀ (genre : Genre) (prog : List ℕ) (patPick : ℕ) (vPick : ℕ → ℕ) (fuel : ℕ)
       (s : ChordState) (step : ℕ) (t : ChordState) (v : List ℚ),
       chord_poll genre prog patPick vPick fuel s step = some (t, some v) →
       some v ≠ s.lastVoicing ∧ t.lastVoicing = some v) := by
  refine ⟨?_, ?_, ?_⟩
  · intro genre prog patPick vPick fuel s step t played hstep h
    unfold chord_poll chord_pattern_update at h
    rw [if_neg hstep] at h
    exact chord_trigger_pattern prog vPick fuel s step t played h
  · intro genre prog patPick vPick fuel s step t played hstep h
    unfold chord_poll chord_pattern_update at h
    rw [if_pos hstep] at h
    exact chord_trigger_pattern prog vPick fuel _ step t played h
  · intro genre prog patPick vPick fuel s step t v h
    unfold chord_poll at h
    have hv := chord_trigger_voicing prog vPick fuel _ step t v h
    rwa [chord_pattern_update_lastVoicing] at hv

theorem chord_poll_pattern_and_voicing_witness :
    chordInitState.currentPattern = chordInitState.currentPattern ∧
    (⟨0, some [13081 / 100, 26163 / 100, 52325 / 100],
      some [1,0,0,0, 1,0,0,0, 1,0,0,0, 1,0,0,0]⟩ : ChordState).currentPattern =
      some ((harmony_patterns .electronic).getD
        (0 % (harmony_patterns .electronic).length) []) ∧
    (some [13081 / 100, 26163 / 100, 52325 / 100] ≠ chordInitState.lastVoicing ∧
      (⟨0, some [13081 / 100, 26163 / 100, 52325 / 100],
        some [1,0,0,0, 1,0,0,0, 1,0,0,0, 1,0,0,0]⟩ : ChordState).lastVoicing =
        some [13081 / 100, 26163 / 100, 52325 / 100]) := by
  refine ⟨?_, ?_, ?_⟩
  · exact chord_poll_pattern_and_voicing.1 .electronic [1, 4, 1, 5] 0 (fun _ => 0) 4
      chordInitState 5 chordInitState none (by decide) (by decide)
  · exact chord_poll_pattern_and_voicing.2.1 .electronic [1, 4, 1, 5] 0 (fun _ => 0) 4
      chordInitState 0 _ (some [13081 / 100, 26163 / 100, 52325 / 100])
      (by decide) (by decide)
  · exact chord_poll_pattern_and_voicing.2.2 .electronic [1, 4, 1, 5] 0 (fun _ => 0) 4
      chordInitState 0 _ _ (by decide)

/-! ### Synthesis engine (lines 386-604) -/

/-- Claim C6 (corrected, amended part): generate_melody_tone,
generate_harmony_tone and the kick of generate_drum_sound never read the
process random source, so identical arguments give identical buffers even
when the cache is bypassed or full (the buffer functions are independent
of the cache entirely). -/
theorem synthesis_pure_amended :
    (∀ (B : Backend) (n1 n2 : ℕ → ℚ) (freq dur amp : ℚ) (genre : Genre),
      melody_buffer B n1 freq dur amp genre = melody_buffer B n2 freq dur amp genre) ∧
    (∀ (B : Backend) (n1 n2 : ℕ → ℚ) (freq dur amp : ℚ),
      harmony_buffer B n1 freq dur amp = harmony_buffer B n2 freq dur amp) ∧
    (∀ (B : Backend) (n1 n2 : ℕ → ℚ) (v : ℚ),
      drum_buffer B n1 .kick v = drum_buffer B n2 .kick v) :=
  ⟨fun _ _ _ _ _ _ _ => rfl, fun _ _ _ _ _ _ => rfl, fun _ _ _ _ => rfl⟩

/-- Claim C6 counterexample: the snare of generate_drum_sound draws fresh
noise from np.random.uniform on every call, so two calls with identical
arguments can return different sample buffers (they differ already at
sample 1000 for the all-zero versus the all-one-half noise draws). -/
theorem drum_snare_noise_dependent :
    drum_buffer stub_backend noise_zero .snare 1 ≠
      drum_buffer stub_backend noise_half .snare 1 := by
  intro h
  have h2 : (drum_buffer stub_backend noise_zero .snare 1).sample 1000 =
      (drum_buffer stub_backend noise_half .snare 1).sample 1000 := by rw [h]
  exact absurd h2 (by decide)

/-- Claim C5 counterexample: generate_melody_tone performs no mixer
availability check and has no exception handler, so on a cache miss with
the mixer unavailable the pygame error from sndarray.make_sound escapes
(modelled as Except.error); likewise generate_drum_sound. -/
theorem mixer_unavailable_counterexample :
    generate_melody_tone false stub_backend noise_zero [] 440 1 4096 .chill = .error () ∧
    generate_drum_sound false stub_backend noise_zero .kick 1 = .error () :=
  ⟨rfl, rfl⟩

/-- Claim C5 (corrected).  What holds: generate_harmony_tone and
play_sound do guard against an unavailable mixer and return None without
raising; generate_melody_tone and generate_drum_sound perform no such
check and have no handler, so on a cache miss the backend failure
propagates to the caller (play_song catches it only in its own outermost
try/except). -/
theorem mixer_unavailable_amended :
    (∀ (B : Backend) (noise : ℕ → ℚ) (c : ToneCache) (freq dur amp : ℚ),
      generate_harmony_tone false B noise c freq dur amp = .ok (none, c)) ∧
    (∀ (muted : Bool) (volume : ℚ) (sound : Option SampleBuffer),
      play_sound false muted volume sound = (none, none)) ∧
    (∀ (B : Backend) (noise : ℕ → ℚ) (c : ToneCache) (freq dur amp : ℚ) (genre : Genre),
      cacheLookup c (.mel freq dur amp genre) = none →
      generate_melody_tone false B noise c freq dur amp genre = .error ()) ∧
    (∀ (B : Backend) (noise : ℕ → ℚ) (t : DrumType) (v : ℚ),
      generate_drum_sound false B noise t v = .error ()) := by
  refine ⟨fun _ _ _ _ _ _ => rfl, ?_, ?_, fun _ _ _ _ => rfl⟩
  · intro muted volume sound
    cases sound with
    | none => rfl
    | some s => rfl
  · intro B noise c freq dur amp genre h
    unfold generate_melody_tone
    rw [h]
    rfl

theorem mixer_unavailable_amended_witness :
    generate_melody_tone false stub_backend noise_zero [] 550 1 4096 .funk = .error () :=
  mixer_unavailable_amended.2.2.1 stub_backend noise_zero [] 550 1 4096 .funk rfl

/-! ### Cache invariant (claim C4) -/

theorem cacheInsert_length (c : ToneCache) (k : ToneKey) (s : SampleBuffer)
    (h : c.length ≤ max_cache_size) : (cacheInsert c k s).length ≤ max_cache_size := by
  unfold cacheInsert
  split
  · next hlt => simp only [List.length_append, List.length_singleton]; omega
  · exact h

theorem toneReqStep_shape (B : Backend) (noise : ℕ → ℚ) (c : ToneCache) (r : ToneReq) :
    toneReqStep B noise c r = c ∨ ∃ k s, toneReqStep B noise c r = cacheInsert c k s := by
  cases r with
  | mel f d a g =>
    cases hc : cacheLookup c (ToneKey.mel f d a g) with
    | some s =>
      left
      simp [toneReqStep, generate_melody_tone, hc]
    | none =>
      right
      refine ⟨ToneKey.mel f d a g, melody_buffer B noise f d a g, ?_⟩
      simp [toneReqStep, generate_melody_tone, hc, make_sound]
  | harm f d a =>
    cases hc : cacheLookup c (ToneKey.harm f d a) with
    | some s =>
      left
      simp [toneReqStep, generate_harmony_tone, hc]
    | none =>
      right
      refine ⟨ToneKey.harm f d a, harmony_buffer B noise f d a, ?_⟩
      simp [toneReqStep, generate_harmony_tone, hc, make_sound]

theorem toneReqStep_length (B : Backend) (noise : ℕ → ℚ) (c : ToneCache) (r : ToneReq)
    (h : c.length ≤ max_cache_size) : (toneReqStep B noise c r).length ≤ max_cache_size := by
  rcases toneReqStep_shape B noise c r with h1 | ⟨k, s, h1⟩ <;> rw [h1]
  · exact h
  · exact cacheInsert_length c k s h

theorem toneReqRun_length (B : Backend) (noise : ℕ → ℚ) :
    ∀ (rs : List ToneReq) (c : ToneCache), c.length ≤ max_cache_size →
      (toneReqRun B noise c rs).length ≤ max_cache_size
  | [], _, h => h
  | r :: rs, c, h =>
    toneReqRun_length B noise rs (toneReqStep B noise c r) (toneReqStep_length B noise c r h)

/-- Claim C4 (confirmed): (a) after any sequence of calls to
generate_melody_tone and generate_harmony_tone, the cache never exceeds
max_cache_size = 1000 entries; (b) once the cache holds exactly 1000
entries, a miss still synthesises and returns the sound but inserts
nothing (the cache is returned unchanged); (c) no call ever removes an
existing entry. -/
theorem tone_cache_invariant :
    (∀ (B : Backend) (noise : ℕ → ℚ) (c : ToneCache) (rs : List ToneReq),
      c.length ≤ max_cache_size → (toneReqRun B noise c rs).length ≤ max_cache_size) ∧
    (∀ (B : Backend) (noise : ℕ → ℚ) (c : ToneCache) (freq dur amp : ℚ) (genre : Genre),
      c.length = max_cache_size → cacheLookup c (.mel freq dur amp genre) = none →
      generate_melody_tone true B noise c freq dur amp genre =
        .ok (melody_buffer B noise freq dur amp genre, c)) ∧
    (∀ (B : Backend) (noise : ℕ → ℚ) (c : ToneCache) (r : ToneReq)
       (e : ToneKey × SampleBuffer), e ∈ c → e ∈ toneReqStep B noise c r) := by
  refine ⟨fun B noise c rs => toneReqRun_length B noise rs c, ?_, ?_⟩
  · intro B noise c freq dur amp genre hlen hmiss
    unfold generate_melody_tone
    rw [hmiss]
    show Except.ok (melody_buffer B noise freq dur amp genre,
      cacheInsert c (.mel freq dur amp genre) (melody_buffer B noise freq dur amp genre)) = _
    unfold cacheInsert
    rw [if_neg (by omega)]
  · intro B noise c r e he
    rcases toneReqStep_shape B noise c r with h1 | ⟨k, s, h1⟩ <;> rw [h1]
    · exact he
    · unfold cacheInsert
      split
      · exact List.mem_append_left _ he
      · exact he

theorem big_cache_length : big_cache.length = max_cache_size := by
  unfold big_cache
  rw [List.length_map, List.length_range]

theorem big_cache_lookup : cacheLookup big_cache (.mel 440 1 4096 .chill) = none := by
  unfold cacheLookup
  rw [List.find?_eq_none.mpr]
  · rfl
  · intro e he
    simp only [big_cache, List.mem_map, List.mem_range] at he
    obtain ⟨i, -, rfl⟩ := he
    simp

theorem tone_cache_invariant_witness :
    (toneReqRun stub_backend noise_zero [] [ToneReq.harm 440 1 4096]).length ≤ max_cache_size ∧
    generate_melody_tone true stub_backend noise_zero big_cache 440 1 4096 .chill =
      .ok (melody_buffer stub_backend noise_zero 440 1 4096 .chill, big_cache) ∧
    (ToneKey.harm 440 1 4096, sample_silent) ∈
      toneReqStep stub_backend noise_zero [(ToneKey.harm 440 1 4096, sample_silent)]
        (ToneReq.mel 440 1 4096 .chill) :=
  ⟨tone_cache_invariant.1 stub_backend noise_zero [] _ (by decide),
   tone_cache_invariant.2.1 stub_backend noise_zero big_cache 440 1 4096 .chill
     big_cache_length big_cache_lookup,
   tone_cache_invariant.2.2 stub_backend noise_zero _ _ _ (by simp)⟩

/-! ### Volume and mute state (set_volume / set_muted, lines 370-384) -/

theorem volumeStep_bounds (s : VolumeState) (op : VolumeOp) :
    0 ≤ (volumeStep s op).volume ∧ (volumeStep s op).volume ≤ 1 := by
  cases op with
  | setVol v => exact ⟨le_max_left 0 _, max_le (by norm_num) (min_le_left 1 v)⟩
  | setMut m => exact ⟨le_max_left 0 _, max_le (by norm_num) (min_le_left 1 _)⟩

theorem volumeRun_bounds : ∀ (ops : List VolumeOp) (s : VolumeState),
    0 ≤ s.volume → s.volume ≤ 1 →
    0 ≤ (volumeRun s ops).volume ∧ (volumeRun s ops).volume ≤ 1
  | [], _, h0, h1 => ⟨h0, h1⟩
  | op :: ops, s, _, _ =>
    volumeRun_bounds ops (volumeStep s op) (volumeStep_bounds s op).1 (volumeStep_bounds s op).2

/-- Claim C10 (corrected, amended part): after any sequence of set_volume
and set_muted calls the stored volume stays in [0, 1] (out-of-range
arguments are clamped); while muted, set_volume and play_sound apply
channel volume 0.0; set_muted never changes the stored volume (for the
in-range volumes of reachable states), so set_muted(False) applies the
currently stored volume — but set_volume DOES update the stored volume
even while muted (see the counterexample). -/
theorem volume_state_amended :
    (∀ ops : List VolumeOp, 0 ≤ (volumeRun init_volume_state ops).volume ∧
      (volumeRun init_volume_state ops).volume ≤ 1) ∧
    (∀ (s : VolumeState) (v : ℚ), s.is_muted = true → (set_volume s v).2 = 0) ∧
    (∀ (v : ℚ) (buf : SampleBuffer), (play_sound true true v (some buf)).2 = some 0) ∧
    (∀ (s : VolumeState) (m : Bool), 0 ≤ s.volume → s.volume ≤ 1 →
      (set_muted s m).1.volume = s.volume) ∧
    (∀ s : VolumeState, 0 ≤ s.volume → s.volume ≤ 1 → (set_muted s false).2 = s.volume) := by
  refine ⟨fun ops => volumeRun_bounds ops init_volume_state (by norm_num [init_volume_state])
    (by norm_num [init_volume_state]), ?_, fun _ _ => rfl, ?_, ?_⟩
  · intro s v h
    simp [set_volume, h]
  · intro s m h0 h1
    show max 0 (min 1 s.volume) = s.volume
    rw [min_eq_right h1, max_eq_right h0]
  · intro s h0 h1
    show (if ({ s with is_muted := false } : VolumeState).is_muted then 0
      else max 0 (min 1 s.volume)) = s.volume
    rw [if_neg (by simp), min_eq_right h1, max_eq_right h0]

theorem volume_state_amended_witness :
    (set_volume ⟨1 / 2, true⟩ (4 / 5)).2 = 0 ∧
    (set_muted ⟨1 / 2, true⟩ false).1.volume = 1 / 2 ∧
    (set_muted ⟨1 / 2, true⟩ false).2 = 1 / 2 :=
  ⟨volume_state_amended.2.1 ⟨1 / 2, true⟩ (4 / 5) rfl,
   volume_state_amended.2.2.2.1 ⟨1 / 2, true⟩ false (by norm_num) (by norm_num),
   volume_state_amended.2.2.2.2 ⟨1 / 2, true⟩ (by norm_num) (by norm_num)⟩

/-- Claim C10 counterexample: while muted, a set_volume call DOES change
the stored volume (0.5 becomes 0.8), contradicting the claim that while
is_muted is true set_volume applies channel volume 0.0 WITHOUT changing
the stored volume.  (Unmuting then restores playback at 0.8, the most
recently stored volume, not the pre-mute one.) -/
theorem muted_set_volume_changes_stored :
    (volumeRun init_volume_state [.setMut true, .setVol (4 / 5)]).is_muted = true ∧
    (volumeRun init_volume_state [.setMut true, .setVol (4 / 5)]).volume = 4 / 5 ∧
    (4 / 5 : ℚ) ≠ (volumeRun init_volume_state [.setMut true]).volume := by
  refine ⟨rfl, ?_, ?_⟩ <;>
    norm_num [volumeRun, volumeStep, set_volume, set_muted, init_volume_state]

/-- Claim C7 counterexample: two successive polls of the harmony worker
that both observe step 0 (the worker polls every millisecond while a step
lasts about 190 ms, so this is the common case) each re-select the
pattern; with different random draws the pattern changes twice within a
single 64-step boundary, refuting that exactly one re-selection occurs
per boundary. -/
theorem chord_pattern_double_reselect :
    chord_poll .electronic [1, 4, 1, 5] 0 (fun _ => 0) 4 chordInitState 0 =
      some (⟨0, some [13081 / 100, 26163 / 100, 52325 / 100],
             some [1,0,0,0, 1,0,0,0, 1,0,0,0, 1,0,0,0]⟩,
            some [13081 / 100, 26163 / 100, 52325 / 100]) ∧
    chord_poll .electronic [1, 4, 1, 5] 1 (fun _ => 0) 4
        ⟨0, some [13081 / 100, 26163 / 100, 52325 / 100],
         some [1,0,0,0, 1,0,0,0, 1,0,0,0, 1,0,0,0]⟩ 0 =
      some (⟨0, some [13081 / 100, 26163 / 100, 52325 / 100],
             some [1,0,0,0, 0,0,1,0, 0,0,1,0, 0,0,1,0]⟩, none) ∧
    ([1,0,0,0, 1,0,0,0, 1,0,0,0, 1,0,0,0] : List ℕ) ≠
      [1,0,0,0, 0,0,1,0, 0,0,1,0, 0,0,1,0] := by
  refine ⟨by decide, by decide, by decide⟩

end MusicGen
